import Mathlib

/-!
Verification of the talent-ai extraction-and-aggregation platform.

The frontend React components (`Analytics.js` in its two coexisting
versions, `JobsTable.js`, `App.js`) are embedded directly from their
JavaScript source.  `Array.prototype.sort` with a user comparator `c` is
required (since ES2019) to be a stable sort in which element `a` may be
placed before `b` whenever `c a b ≤ 0`; for a consistent comparator every
stable comparison sort produces the same list, so we embed it as a stable
insertion sort `jsSort le` with `le a b ↔ c a b ≤ 0`.

The Python backend (salary parser, aggregation engine, detail fetcher,
scrape orchestrator) is not part of the sources available here — only its
callers and documentation are — so those components are modelled from the
specification text, as marked on each definition.
-/

namespace TalentAI

/-- Stable insertion step of the JS sort embedding: `x` is placed before
the first element `y` with `le x y`; on ties (`le x y` and `le y x`) `x`,
which occurred earlier in the input, stays first. -/
def jsInsert (le : α → α → Bool) (x : α) : List α → List α
  | [] => [x]
  | y :: ys => if le x y then x :: y :: ys else y :: jsInsert le x ys

/-- Embedding of `Array.prototype.sort` with comparator `c`, where
`le a b ↔ c a b ≤ 0`: a stable comparison sort. -/
def jsSort (le : α → α → Bool) : List α → List α
  | [] => []
  | x :: xs => jsInsert le x (jsSort le xs)

/-- An entry of a frequency map (`departments` / `locations`):
JS objects preserve insertion order, so a map is an entry list. -/
abbrev Entry := String × Nat

/-- Comparator order for the location chart's
`.sort(([,a],[,b]) => b - a)`: `x` may precede `y` iff `b - a ≤ 0`,
i.e. iff `y.2 ≤ x.2`. -/
def locLE (x y : Entry) : Bool := y.2 ≤ x.2

/-- `Analytics.js`: labels of the department doughnut chart,
`Object.keys(data.departments).slice(0, 8)`. -/
def deptChartLabels (departments : List Entry) : List String :=
  (departments.map Prod.fst).take 8

/-- `Analytics.js`: data of the department doughnut chart,
`Object.values(data.departments).slice(0, 8)`. -/
def deptChartValues (departments : List Entry) : List Nat :=
  (departments.map Prod.snd).take 8

/-- `Analytics.js`: the location chart's
`Object.entries(data.locations).sort(([,a],[,b]) => b - a).slice(0, 10)`. -/
def sortedLocations (locations : List Entry) : List Entry :=
  (jsSort locLE locations).take 10

/-- Decorate a list with positions starting at `i` (first-seen order). -/
def withIdx (i : Nat) : List α → List (Nat × α)
  | [] => []
  | x :: xs => (i, x) :: withIdx (i + 1) xs

/-- The order described by the claim for index-decorated entries:
strictly larger count first, ties broken by smaller (earlier) index. -/
def claimLE (p q : Nat × Entry) : Bool :=
  if p.2.2 = q.2.2 then p.1 ≤ q.1 else q.2.2 < p.2.2

/-- The claim's selection, stated in its own words: decorate the entries
with their first-seen position, order by count descending with ties
broken by first-seen position, keep the first `n`. -/
def topNByCount (n : Nat) (l : List Entry) : List Entry :=
  ((jsSort claimLE (withIdx 0 l)).map Prod.snd).take n

/-- An entry of the `avg_salary_by_dept` map: department name paired with
its `avg` field (the only field the chart reads). -/
abbrev DeptAvg := String × ℚ

/-- Comparator order for `.sort(([,a],[,b]) => b.avg - a.avg)`. -/
def avgLE (x y : DeptAvg) : Bool := y.2 ≤ x.2

/-- Embeds `Analytics.js` (7-chart version): the average-salary-by-
department chart data, `Object.entries(data.avg_salary_by_dept)
.filter(([, dept]) => dept.avg > 0).sort(([,a],[,b]) => b.avg - a.avg)
.slice(0, 10)`. -/
def avgSalaryDeptData (m : List DeptAvg) : List DeptAvg :=
  (jsSort avgLE (m.filter fun p => decide (0 < p.2))).take 10

/-- JS truthiness of an optional numeric value, embedding `!amount`:
`none` (null / undefined) and `0` are falsy. -/
def jsFalsy : Option ℚ → Bool
  | none => true
  | some q => q == 0

/-- ES semantics of `Number.prototype.toFixed(0)`: the integer `n`
minimizing `|n - x|`, ties resolved to the larger `n`. -/
def jsToFixed0 (q : ℚ) : ℤ := ⌊q + 1 / 2⌋

/-- ES semantics of `toFixed(1)`: the number of tenths, rounded with
ties to the larger value. -/
def jsToFixed1 (q : ℚ) : ℤ := ⌊10 * q + 1 / 2⌋

/-- Decimal rendering of a `toFixed(1)` result. -/
def renderFixed1 (q : ℚ) : String :=
  (if jsToFixed1 q < 0 then "-" else "") ++
    toString ((jsToFixed1 q).natAbs / 10) ++ "." ++
    toString ((jsToFixed1 q).natAbs % 10)

/-- Embeds `Analytics.js` (7-chart version) `formatSalary`:
`if (!amount) return 'N/A'; return ...toFixed(0)...` . -/
def formatSalary (amount : Option ℚ) : String :=
  if jsFalsy amount then "N/A"
  else "$" ++ toString (jsToFixed0 (amount.getD 0 / 1000)) ++ "K"

/-- Embeds the disclosure-rate stat card of `Analytics.js` (7-chart
version): `data.disclosure_rate ? ...toFixed(1)...% : 'N/A'`. -/
def disclosureRateStat (r : Option ℚ) : String :=
  if jsFalsy r then "N/A" else renderFixed1 (r.getD 0) ++ "%"

end TalentAI

namespace TalentAI.AnalyticsV3

/-- Comparator order of the 3-chart `Analytics.js` version's
`.sort(([,a],[,b]) => b - a)`. -/
def locLE (x y : TalentAI.Entry) : Bool := y.2 ≤ x.2

/-- Embeds the 3-chart `Analytics.js` version: `Object.entries(
data.locations).sort(([,a],[,b]) => b - a).slice(0, 10)`. -/
def sortedLocations (locations : List TalentAI.Entry) : List TalentAI.Entry :=
  (TalentAI.jsSort locLE locations).take 10

/-- Embeds the 3-chart `Analytics.js` version's `formatSalary`. -/
def formatSalary (amount : Option ℚ) : String :=
  if TalentAI.jsFalsy amount then "N/A"
  else "$" ++ toString (TalentAI.jsToFixed0 (amount.getD 0 / 1000)) ++ "K"

end TalentAI.AnalyticsV3

namespace TalentAI

/-- JS `String.prototype.startsWith` over char lists. -/
def strStartsWith : List Char → List Char → Bool
  | [], _ => true
  | _ :: _, [] => false
  | a :: as, b :: bs => a == b && strStartsWith as bs

/-- JS `String.prototype.includes` over char lists: `needle` occurs as a
contiguous substring of `hay`. -/
def strIncludes (needle : List Char) : List Char → Bool
  | [] => strStartsWith needle []
  | c :: t => strStartsWith needle (c :: t) || strIncludes needle t

/-- JS `String.prototype.toLowerCase`, character by character. -/
def lowerStr (s : List Char) : List Char := s.map Char.toLower

/-- The substring relation used to state the filtering claim:
`needle` occurs contiguously inside `hay`. -/
def ContainsSub (needle hay : List Char) : Prop :=
  ∃ s t, hay = s ++ needle ++ t

/-- A row of `JobsTable.js`, with the fields the component reads. -/
structure Job where
  title : List Char
  location : List Char
  department : List Char
  salary : Option (ℚ × ℚ)
deriving DecidableEq

/-- Embeds the body of the `JobsTable.js` filter predicate: the job's
title, location or department contains the lowercased filter text. -/
def jobMatches (flt : List Char) (j : Job) : Bool :=
  strIncludes (lowerStr flt) (lowerStr j.title) ||
  strIncludes (lowerStr flt) (lowerStr j.location) ||
  strIncludes (lowerStr flt) (lowerStr j.department)

/-- The claim's matching predicate: title, location or department
contains the filter string case-insensitively. -/
def MatchesSpec (flt : List Char) (j : Job) : Prop :=
  ContainsSub (lowerStr flt) (lowerStr j.title) ∨
  ContainsSub (lowerStr flt) (lowerStr j.location) ∨
  ContainsSub (lowerStr flt) (lowerStr j.department)

/-- Embeds `JobsTable.js` `filteredJobs = jobs.filter(...)`. -/
def filteredJobs (jobs : List Job) (flt : List Char) : List Job :=
  jobs.filter (jobMatches flt)

/-- The sortable columns of `JobsTable.js`. -/
inductive SortField
  | title
  | department
  | location
  | salary

/-- JS `<` on strings: lexicographic comparison by code unit. -/
def strLt : List Char → List Char → Bool
  | [], [] => false
  | [], _ :: _ => true
  | _ :: _, [] => false
  | a :: as, b :: bs => if a < b then true else if b < a then false else strLt as bs

/-- Embeds `a.salary?.min || 0` of the `JobsTable.js` comparator. -/
def salKey (j : Job) : ℚ :=
  match j.salary with
  | none => 0
  | some s => s.1

/-- Whether `aVal > bVal` holds in the `JobsTable.js` comparator for the
given column (string columns are lowercased first). -/
def fieldGt (f : SortField) (a b : Job) : Bool :=
  match f with
  | SortField.salary => salKey b < salKey a
  | SortField.title => strLt (lowerStr b.title) (lowerStr a.title)
  | SortField.department => strLt (lowerStr b.department) (lowerStr a.department)
  | SortField.location => strLt (lowerStr b.location) (lowerStr a.location)

/-- The sort order induced by the `JobsTable.js` comparator, which
returns `1` when `aVal > bVal` (ascending) or `aVal < bVal`
(descending) and `-1` otherwise: `a` may precede `b` iff the comparator
is non-positive. -/
def jobLE (f : SortField) (asc : Bool) (a b : Job) : Bool :=
  if asc then !(fieldGt f a b) else !(fieldGt f b a)

/-- Embeds `JobsTable.js` `sortedJobs = [...filteredJobs].sort(...)`. -/
def sortedJobs (jobs : List Job) (flt : List Char) (f : SortField) (asc : Bool) :
    List Job :=
  jsSort (jobLE f asc) (filteredJobs jobs flt)

/-- Embeds the `X` of the counter `Showing X of Y jobs`:
`sortedJobs.length`. -/
def shownCount (jobs : List Job) (flt : List Char) (f : SortField) (asc : Bool) :
    Nat :=
  (sortedJobs jobs flt f asc).length

/-- Embeds the `Y` of the counter `Showing X of Y jobs`: `jobs.length`. -/
def totalCount (jobs : List Job) : Nat := jobs.length

/-- Numeric value of a decimal digit character. -/
def digitVal (c : Char) : Nat := c.toNat - 48

/-- Modelled from the spec: the salary parser's digit scanner (the
backend salary parser is not among the available sources).  Consumes a
digit string, skipping thousands separators (a comma directly followed
by another digit), and returns the value with the unconsumed rest. -/
def parseDigits (acc : Nat) : List Char → Nat × List Char
  | [] => (acc, [])
  | c :: rest =>
    if c.isDigit then parseDigits (10 * acc + digitVal c) rest
    else if c = ',' then
      match rest with
      | d :: _ => if d.isDigit then parseDigits acc rest else (acc, c :: rest)
      | [] => (acc, [c])
    else (acc, c :: rest)

/-- Modelled from the spec: the sanity floor — numeric values below 1000
are treated as already-in-thousands and multiplied by 1000. -/
def normFloor (n : Nat) : Nat := if n < 1000 then n * 1000 else n

/-- Modelled from the spec: apply an optional `k` thousands suffix, then
the sanity floor. -/
def finishNum (n : Nat) : List Char → Nat × List Char
  | [] => (normFloor n, [])
  | c :: rest =>
    if c = 'k' ∨ c = 'K' then (normFloor (n * 1000), rest)
    else (normFloor n, c :: rest)

/-- Skip blanks. -/
def skipSpaces : List Char → List Char
  | ' ' :: rest => skipSpaces rest
  | l => l

/-- Modelled from the spec: recognize a range separator — a hyphen, an
en-dash, or the word `to`. -/
def dropSep : List Char → Option (List Char)
  | '-' :: rest => some (skipSpaces rest)
  | '–' :: rest => some (skipSpaces rest)
  | 't' :: 'o' :: rest => some (skipSpaces rest)
  | _ => none

/-- Modelled from the spec: parse the second value of a range, after an
optional second `$`. -/
def parseSecond (l : List Char) : Option Nat :=
  match (match l with | '$' :: r => r | l1 => l1) with
  | [] => none
  | c :: rest =>
    if c.isDigit then
      some (finishNum (parseDigits (digitVal c) rest).1
        (parseDigits (digitVal c) rest).2).1
    else none

/-- Modelled from the spec: parse a salary expression starting right
after a `$` marker.  A single value (or a `+`-suffixed value) yields
`min = max`; a range whose `min > max` is rejected with `none` rather
than swapped. -/
def parseAt (l : List Char) : Option (Nat × Nat) :=
  match l with
  | [] => none
  | c :: rest =>
    if c.isDigit then
      let p2 := finishNum (parseDigits (digitVal c) rest).1 (parseDigits (digitVal c) rest).2
      let r3 := skipSpaces p2.2
      if r3.head? = some '+' then some (p2.1, p2.1)
      else
        match dropSep r3 with
        | some r4 =>
          match parseSecond r4 with
          | some mx => if p2.1 ≤ mx then some (p2.1, mx) else none
          | none => some (p2.1, p2.1)
        | none => some (p2.1, p2.1)
    else none

/-- Modelled from the spec: the salary parser scans the text for the
first dollar marker (a `$` directly followed by a digit) and parses the
only match it will consider there; text with no dollar marker yields
`none`. -/
def scanSalary : List Char → Option (Nat × Nat)
  | [] => none
  | c :: rest =>
    if c = '$' then
      match rest with
      | [] => none
      | d :: _ => if d.isDigit then parseAt rest else scanSalary rest
    else scanSalary rest

/-- Modelled from the spec: the salary parser over a text, in absolute
currency units, `none` when no parsable salary is present. -/
def parseSalary (s : String) : Option (Nat × Nat) := scanSalary s.data

/-- Seniority tiers of the canonical schema. -/
inductive Seniority
  | entry
  | mid
  | senior
  | lead
  | principalStaff
  | unknown
deriving DecidableEq

/-- Work-arrangement classification of the canonical schema. -/
inductive WorkArrangement
  | remote
  | hybrid
  | onsite
  | unknown
deriving DecidableEq

/-- A salary range of the canonical schema. -/
structure SalaryRange where
  min : Nat
  max : Nat
  currency : String
deriving DecidableEq

/-- A `JobPosting` of the canonical schema. -/
structure JobPosting where
  title : String
  location : String
  department : String
  seniorityLevel : Seniority
  workArrangement : WorkArrangement
  salary : Option SalaryRange
  url : String
deriving DecidableEq

/-- A `CompanyJobSet`: the ordered postings of one company. -/
abbrev CompanyJobSet := List JobPosting

/-- Increment the count of `k` in a frequency table, first-seen order
preserved. -/
def bump [DecidableEq κ] (k : κ) : List (κ × Nat) → List (κ × Nat)
  | [] => [(k, 1)]
  | (k', c) :: rest => if k = k' then (k', c + 1) :: rest else (k', c) :: bump k rest

/-- Modelled from the spec: a frequency table over a key list, entries
in first-seen order. -/
def freqTable [DecidableEq κ] (keys : List κ) : List (κ × Nat) :=
  keys.foldl (fun acc k => bump k acc) []

/-- Number of postings with a parsed salary. -/
def countWithSalary (jobs : CompanyJobSet) : Nat :=
  jobs.countP fun j => j.salary.isSome

/-- Modelled from the spec: the salary disclosure rate — postings with
salary over total postings, times 100; defined as 0 (not NaN) on an
empty job set (the backend aggregation engine is not among the
available sources). -/
def disclosureRate (jobs : CompanyJobSet) : ℚ :=
  if jobs.length = 0 then 0
  else 100 * (countWithSalary jobs : ℚ) / (jobs.length : ℚ)

/-- The postings carrying a salary. -/
def salariedJobs (jobs : CompanyJobSet) : CompanyJobSet :=
  jobs.filter fun j => j.salary.isSome

/-- Salary midpoint `(min + max) / 2`. -/
def midpoint (s : SalaryRange) : ℚ := ((s.min : ℚ) + (s.max : ℚ)) / 2

/-- Default salary used only under a `salary.isSome` guard. -/
def dummySalary : SalaryRange := ⟨0, 0, ""⟩

/-- Modelled from the spec: mean of `min` and mean of `max` over the
postings with salary; `none` when no posting has one. -/
def avgSalary (jobs : CompanyJobSet) : Option (ℚ × ℚ) :=
  if (salariedJobs jobs).length = 0 then none
  else some
    (((salariedJobs jobs).map fun j => ((j.salary.getD dummySalary).min : ℚ)).sum
        / ((salariedJobs jobs).length : ℚ),
     ((salariedJobs jobs).map fun j => ((j.salary.getD dummySalary).max : ℚ)).sum
        / ((salariedJobs jobs).length : ℚ))

/-- Modelled from the spec: fixed histogram bucket of a salary
midpoint. -/
def bucketOf (m : ℚ) : String :=
  if m < 50000 then "0-50k"
  else if m < 100000 then "50-100k"
  else if m < 150000 then "100-150k"
  else if m < 200000 then "150-200k"
  else if m < 250000 then "200-250k"
  else "250k+"

/-- Modelled from the spec: salary-range histogram over midpoints of the
salaried postings. -/
def salaryDistribution (jobs : CompanyJobSet) : List (String × Nat) :=
  freqTable ((salariedJobs jobs).map fun j => bucketOf (midpoint (j.salary.getD dummySalary)))

/-- Department names in first-seen order. -/
def deptKeys (jobs : CompanyJobSet) : List String :=
  (freqTable (jobs.map JobPosting.department)).map Prod.fst

/-- Modelled from the spec: per-department mean of midpoints over the
salaried postings, 0 for a department with no salaried posting. -/
def deptAvgSalary (jobs : CompanyJobSet) (d : String) : ℚ :=
  if ((salariedJobs jobs).filter fun j => j.department = d).length = 0 then 0
  else ((((salariedJobs jobs).filter fun j => j.department = d).map
          fun j => midpoint (j.salary.getD dummySalary)).sum)
      / ((((salariedJobs jobs).filter fun j => j.department = d).length : ℚ))

/-- Modelled from the spec: the `avg_salary_by_dept` map. -/
def avgSalaryByDept (jobs : CompanyJobSet) : List (String × ℚ) :=
  (deptKeys jobs).map fun d => (d, deptAvgSalary jobs d)

/-- Modelled from the spec: order for the top-paid ranking — `max`
descending, ties by `min` descending, remaining ties by insertion
order (stability). -/
def topPayLE (a b : JobPosting) : Bool :=
  if (a.salary.getD dummySalary).max = (b.salary.getD dummySalary).max then
    (b.salary.getD dummySalary).min ≤ (a.salary.getD dummySalary).min
  else (b.salary.getD dummySalary).max < (a.salary.getD dummySalary).max

/-- Modelled from the spec: the top-10 highest-paid postings, salaried
postings only. -/
def topPayingJobs (jobs : CompanyJobSet) : List JobPosting :=
  (jsSort topPayLE (salariedJobs jobs)).take 10

/-- The derived `AnalyticsSummary` view. -/
structure AnalyticsSummary where
  total_jobs : Nat
  departments : List (String × Nat)
  locations : List (String × Nat)
  with_salary : Nat
  without_salary : Nat
  disclosure_rate : ℚ
  avg_salary : Option (ℚ × ℚ)
  salary_distribution : List (String × Nat)
  avg_salary_by_dept : List (String × ℚ)
  seniority_levels : List (Seniority × Nat)
  work_arrangement : List (WorkArrangement × Nat)
  top_paying_jobs : List JobPosting
deriving DecidableEq

/-- Modelled from the spec: the aggregation engine `analyze`, a pure
function of the finalized `CompanyJobSet` (the backend aggregation
engine is not among the available sources). -/
def analyze (jobs : CompanyJobSet) : AnalyticsSummary where
  total_jobs := jobs.length
  departments := freqTable (jobs.map JobPosting.department)
  locations := freqTable (jobs.map JobPosting.location)
  with_salary := countWithSalary jobs
  without_salary := jobs.length - countWithSalary jobs
  disclosure_rate := disclosureRate jobs
  avg_salary := avgSalary jobs
  salary_distribution := salaryDistribution jobs
  avg_salary_by_dept := avgSalaryByDept jobs
  seniority_levels := freqTable (jobs.map JobPosting.seniorityLevel)
  work_arrangement := freqTable (jobs.map JobPosting.workArrangement)
  top_paying_jobs := topPayingJobs jobs

/-- The fatal error taxonomy of `scrape`. -/
inductive ScrapeError
  | FetchError
  | UnsupportedPlatformError
deriving DecidableEq

/-- Page content of a fetched listing page. -/
abbrev Page := String

/-- A raw job stub extracted from a listing page. -/
abbrev JobStub := String

/-- Modelled from the spec: the `scrape` entry point (the backend
orchestrator is not among the available sources).  The initial fetch
result is `none` on a fetch failure; an extraction strategy returns
`none` on a fundamentally unparseable payload and `some stubs`
(possibly empty) on a parseable one. -/
def scrape (fetchResult : Option Page)
    (stratExtract fallbackExtract : Page → Option (List JobStub)) :
    Except ScrapeError (List JobStub) :=
  match fetchResult with
  | none => Except.error ScrapeError.FetchError
  | some page =>
    match stratExtract page with
    | some stubs => Except.ok stubs
    | none =>
      match fallbackExtract page with
      | some stubs => Except.ok stubs
      | none => Except.error ScrapeError.UnsupportedPlatformError

/-- State of the detail-fetch worker pool. -/
structure PoolState where
  queued : Nat
  inFlight : Nat
  done : Nat
deriving DecidableEq

/-- Modelled from the spec: the default concurrency ceiling of the
detail fetcher. -/
def defaultConcurrency : Nat := 20

/-- Modelled from the spec: a step of the bounded worker pool (the
backend detail fetcher is not among the available sources).  A queued
fetch may start only while strictly below the ceiling; an in-flight
fetch may complete at any time. -/
inductive PoolStep (limit : Nat) : PoolState → PoolState → Prop
  | start (s : PoolState) : s.queued ≠ 0 → s.inFlight < limit →
      PoolStep limit s ⟨s.queued - 1, s.inFlight + 1, s.done⟩
  | finish (s : PoolState) : s.inFlight ≠ 0 →
      PoolStep limit s ⟨s.queued, s.inFlight - 1, s.done + 1⟩

/-- Initial pool state for a batch of `n` detail fetches. -/
def initPool (n : Nat) : PoolState := ⟨n, 0, 0⟩

/-- States a run of the pool can reach. -/
def PoolReachable (limit n : Nat) (s : PoolState) : Prop :=
  Relation.ReflTransGen (PoolStep limit) (initPool n) s

end TalentAI

namespace TalentAI

theorem jsInsert_perm (le : α → α → Bool) (x : α) (l : List α) :
    (jsInsert le x l).Perm (x :: l) := by
  induction l with
  | nil => simp [jsInsert]
  | cons y ys ih =>
    simp only [jsInsert]
    split
    · exact List.Perm.refl _
    · exact ((ih.cons y).trans (List.Perm.swap x y ys)).symm.symm

theorem jsSort_perm (le : α → α → Bool) (l : List α) :
    (jsSort le l).Perm l := by
  induction l with
  | nil => simp [jsSort]
  | cons x xs ih =>
    exact (jsInsert_perm le x (jsSort le xs)).trans (ih.cons x)

theorem mem_jsSort (le : α → α → Bool) (l : List α) (a : α) :
    a ∈ jsSort le l ↔ a ∈ l :=
  (jsSort_perm le l).mem_iff

theorem length_jsSort (le : α → α → Bool) (l : List α) :
    (jsSort le l).length = l.length :=
  (jsSort_perm le l).length_eq

theorem pairwise_jsInsert (le : α → α → Bool)
    (htot : ∀ a b, le a b || le b a)
    (htrans : ∀ a b c, le a b → le b c → le a c)
    (x : α) (l : List α)
    (hl : l.Pairwise fun a b => le a b) :
    (jsInsert le x l).Pairwise fun a b => le a b := by
  induction l with
  | nil => simp [jsInsert]
  | cons y ys ih =>
    rcases hl with _ | ⟨hy, hys⟩
    by_cases hxy : le x y = true
    · rw [jsInsert, if_pos hxy]
      refine List.Pairwise.cons ?_ (List.Pairwise.cons hy hys)
      intro b hb
      rcases List.mem_cons.mp hb with rfl | hb
      · exact hxy
      · exact htrans x y b hxy (hy b hb)
    · rw [jsInsert, if_neg hxy]
      have hyx : le y x = true := by
        rcases Bool.or_eq_true_iff.mp (htot x y) with h | h
        · exact absurd h hxy
        · exact h
      refine List.Pairwise.cons ?_ (ih hys)
      intro b hb
      have hb' := (jsInsert_perm le x ys).mem_iff.mp hb
      rcases List.mem_cons.mp hb' with rfl | hb'
      · exact hyx
      · exact hy b hb'

theorem pairwise_jsSort (le : α → α → Bool)
    (htot : ∀ a b, le a b || le b a)
    (htrans : ∀ a b c, le a b → le b c → le a c)
    (l : List α) :
    (jsSort le l).Pairwise fun a b => le a b := by
  induction l with
  | nil => simp [jsSort]
  | cons x xs ih =>
    exact pairwise_jsInsert le htot htrans x (jsSort le xs) ih

end TalentAI

namespace TalentAI

theorem withIdx_map_snd (l : List α) : ∀ i, (withIdx i l).map Prod.snd = l := by
  induction l with
  | nil => intro i; rfl
  | cons x xs ih => intro i; simp [withIdx, ih]

theorem withIdx_lb (l : List α) : ∀ i p, p ∈ withIdx i l → i ≤ p.1 := by
  induction l with
  | nil => intro i p h; simp [withIdx] at h
  | cons x xs ih =>
    intro i p h
    rcases List.mem_cons.mp h with rfl | h
    · exact le_refl i
    · exact le_trans (Nat.le_succ i) (ih (i + 1) p h)

theorem withIdx_pairwise (l : List α) :
    ∀ i, (withIdx i l).Pairwise fun p q => p.1 < q.1 := by
  induction l with
  | nil => intro i; simp [withIdx]
  | cons x xs ih =>
    intro i
    refine List.Pairwise.cons ?_ (ih (i + 1))
    intro q hq
    exact Nat.lt_of_lt_of_le (Nat.lt_succ_self i) (withIdx_lb xs (i + 1) q hq)

theorem claimLE_eq_locLE (p q : Nat × Entry) (h : p.1 < q.1) :
    claimLE p q = locLE p.2 q.2 := by
  unfold claimLE locLE
  split
  · rename_i he
    simp only [decide_eq_decide]
    omega
  · rename_i he
    simp only [decide_eq_decide]
    omega

theorem map_snd_jsInsert (z : Nat × Entry) (d : List (Nat × Entry))
    (hz : ∀ w ∈ d, z.1 < w.1) :
    (jsInsert claimLE z d).map Prod.snd = jsInsert locLE z.2 (d.map Prod.snd) := by
  induction d with
  | nil => rfl
  | cons w ws ih =>
    have hzw := claimLE_eq_locLE z w (hz w (List.mem_cons_self w ws))
    simp only [jsInsert, List.map_cons, ← hzw]
    cases hcb : claimLE z w
    · simp only [hcb, Bool.false_eq_true, if_false, List.map_cons]
      rw [ih fun w' hw' => hz w' (List.mem_cons_of_mem w hw')]
    · simp [hcb]

theorem map_snd_jsSort (d : List (Nat × Entry))
    (hd : d.Pairwise fun p q => p.1 < q.1) :
    (jsSort claimLE d).map Prod.snd = jsSort locLE (d.map Prod.snd) := by
  induction d with
  | nil => rfl
  | cons z ds ih =>
    rcases hd with _ | ⟨hz, hds⟩
    simp only [jsSort, List.map_cons]
    rw [map_snd_jsInsert z _ fun w hw => hz w ((jsSort_perm claimLE ds).mem_iff.mp hw),
      ih hds]

/-- C1 counterexample: on the departments map A..I with counts 1..9, the
department chart displays the first 8 keys in insertion order (A..H),
not the 8 keys with the largest counts (which would start with I). -/
theorem C1_counterexample :
    ¬ (deptChartLabels
        [("A", 1), ("B", 2), ("C", 3), ("D", 4), ("E", 5), ("F", 6), ("G", 7), ("H", 8), ("I", 9)] =
      (topNByCount 8
        [("A", 1), ("B", 2), ("C", 3), ("D", 4), ("E", 5), ("F", 6), ("G", 7), ("H", 8), ("I", 9)]).map
        Prod.fst) := by
  decide

/-- C1 (amended): the location chart's 10 displayed entries are the 10
with the largest counts, ties keeping first-seen order; the department
chart instead displays the first 8 entries of the departments map in
insertion order, regardless of counts. -/
theorem C1_amended (departments locations : List Entry) :
    deptChartLabels departments = (departments.take 8).map Prod.fst ∧
    deptChartValues departments = (departments.take 8).map Prod.snd ∧
    sortedLocations locations = topNByCount 10 locations := by
  refine ⟨(List.map_take Prod.fst departments 8).symm,
    (List.map_take Prod.snd departments 8).symm, ?_⟩
  rw [topNByCount, map_snd_jsSort _ (withIdx_pairwise locations 0),
    withIdx_map_snd, sortedLocations]

/-- C2: the average-salary-by-department chart displays only departments
of the map with strictly positive average, ordered by average
descending, and truncated to at most 10 entries. -/
theorem C2_avg_salary_ranking (m : List DeptAvg) :
    (∀ p ∈ avgSalaryDeptData m, p ∈ m ∧ 0 < p.2) ∧
    ((avgSalaryDeptData m).Pairwise fun p q => q.2 ≤ p.2) ∧
    (avgSalaryDeptData m).length ≤ 10 := by
  refine ⟨?_, ?_, List.length_take_le 10 _⟩
  · intro p hp
    have h1 : p ∈ jsSort avgLE (m.filter fun p => decide (0 < p.2)) :=
      (List.take_sublist 10 _).subset hp
    have h2 := (jsSort_perm avgLE _).mem_iff.mp h1
    refine ⟨List.mem_of_mem_filter h2, ?_⟩
    have := List.of_mem_filter h2
    simpa using this
  · have hs := pairwise_jsSort avgLE
      (fun a b => by
        simp only [avgLE, Bool.or_eq_true, decide_eq_true_iff]
        exact le_total b.2 a.2)
      (fun a b c hab hbc => by
        simp only [avgLE, decide_eq_true_iff] at *
        exact le_trans hbc hab)
      (m.filter fun p => decide (0 < p.2))
    have ht := List.Pairwise.sublist (List.take_sublist 10 _) hs
    exact ht.imp fun h => by simpa [avgLE] using h

theorem C2_witness :
    (∀ p ∈ avgSalaryDeptData [("Eng", (250000 : ℚ)), ("Zero", 0), ("Sales", 100000)],
      p ∈ [("Eng", (250000 : ℚ)), ("Zero", 0), ("Sales", 100000)] ∧ 0 < p.2) ∧
    ((avgSalaryDeptData [("Eng", (250000 : ℚ)), ("Zero", 0), ("Sales", 100000)]).Pairwise
      fun p q => q.2 ≤ p.2) ∧
    (avgSalaryDeptData [("Eng", (250000 : ℚ)), ("Zero", 0), ("Sales", 100000)]).length ≤ 10 :=
  C2_avg_salary_ranking [("Eng", (250000 : ℚ)), ("Zero", 0), ("Sales", 100000)]

/-- C9: the two coexisting `Analytics.js` versions agree on their shared
display data — the sorted-and-truncated location dataset and the
formatted salary string. -/
theorem C9_versions_agree :
    (∀ locations : List Entry,
      sortedLocations locations = AnalyticsV3.sortedLocations locations) ∧
    (∀ amount : Option ℚ, formatSalary amount = AnalyticsV3.formatSalary amount) :=
  ⟨fun _ => rfl, fun _ => rfl⟩

/-- C10: every falsy amount (absent or exactly 0) renders as N/A in
`formatSalary`, and a falsy disclosure rate renders as N/A in the
disclosure-rate stat card; in particular both render N/A at exactly 0. -/
theorem C10_falsy_renders_na :
    (∀ amount, jsFalsy amount = true → formatSalary amount = "N/A") ∧
    (∀ r, jsFalsy r = true → disclosureRateStat r = "N/A") ∧
    formatSalary (some 0) = "N/A" ∧
    disclosureRateStat (some 0) = "N/A" := by
  refine ⟨?_, ?_, ?_, ?_⟩
  · intro a h; rw [formatSalary, if_pos h]
  · intro r h; rw [disclosureRateStat, if_pos h]
  · decide
  · decide

theorem C10_witness :
    jsFalsy (some 0) = true ∧ formatSalary (some 0) = "N/A" ∧
    disclosureRateStat none = "N/A" :=
  ⟨by decide, C10_falsy_renders_na.1 (some 0) (by decide),
    C10_falsy_renders_na.2.1 none (by decide)⟩

end TalentAI

namespace TalentAI

theorem strStartsWith_iff (n : List Char) :
    ∀ h : List Char, strStartsWith n h = true ↔ ∃ t, h = n ++ t := by
  induction n with
  | nil =>
    intro h
    simp only [strStartsWith, List.nil_append, true_iff]
    exact ⟨h, rfl⟩
  | cons a as ih =>
    intro h
    cases h with
    | nil =>
      simp only [strStartsWith, List.cons_append]
      constructor
      · intro hf; cases hf
      · rintro ⟨t, ht⟩; cases ht
    | cons b bs =>
      simp only [strStartsWith, Bool.and_eq_true, beq_iff_eq, ih bs, List.cons_append,
        List.cons.injEq]
      constructor
      · rintro ⟨rfl, t, rfl⟩; exact ⟨t, rfl, rfl⟩
      · rintro ⟨t, rfl, rfl⟩; exact ⟨rfl, t, rfl⟩

theorem strIncludes_iff (n : List Char) :
    ∀ h : List Char, strIncludes n h = true ↔ ContainsSub n h := by
  intro h
  induction h with
  | nil =>
    simp only [strIncludes, strStartsWith_iff, ContainsSub]
    constructor
    · rintro ⟨t, ht⟩
      exact ⟨[], t, by simpa using ht⟩
    · rintro ⟨s, t, hst⟩
      have h1 := List.append_eq_nil.mp hst.symm
      have h2 := List.append_eq_nil.mp h1.1
      exact ⟨t, by simp [h2.2, h1.2]⟩
  | cons c cs ih =>
    simp only [strIncludes, Bool.or_eq_true, strStartsWith_iff, ih, ContainsSub]
    constructor
    · rintro (⟨t, ht⟩ | ⟨s, t, hst⟩)
      · exact ⟨[], t, by simpa using ht⟩
      · exact ⟨c :: s, t, by simp [hst]⟩
    · rintro ⟨s, t, hst⟩
      cases s with
      | nil => exact Or.inl ⟨t, by simpa using hst⟩
      | cons c' s' =>
        simp only [List.cons_append] at hst
        injection hst with hc hcs
        exact Or.inr ⟨s', t, hcs⟩

theorem jobMatches_iff (flt : List Char) (j : Job) :
    jobMatches flt j = true ↔ MatchesSpec flt j := by
  simp only [jobMatches, MatchesSpec, Bool.or_eq_true, strIncludes_iff, or_assoc]

/-- C8: the jobs table displays exactly the jobs whose title, location
or department contains the filter case-insensitively, and the counter
`Showing X of Y jobs` has `X` = the number of matching jobs and
`Y` = the total number of jobs passed in. -/
theorem C8_jobs_table_filter (jobs : List Job) (flt : List Char)
    (f : SortField) (asc : Bool) :
    (sortedJobs jobs flt f asc).Perm (filteredJobs jobs flt) ∧
    (∀ j, j ∈ filteredJobs jobs flt ↔ j ∈ jobs ∧ MatchesSpec flt j) ∧
    shownCount jobs flt f asc = jobs.countP (jobMatches flt) ∧
    totalCount jobs = jobs.length := by
  refine ⟨jsSort_perm _ _, ?_, ?_, rfl⟩
  · intro j
    rw [filteredJobs, List.mem_filter]
    exact and_congr_right fun _ => jobMatches_iff flt j
  · rw [shownCount, sortedJobs, length_jsSort, filteredJobs,
      ← List.countP_eq_length_filter]

theorem C8_witness :
    (sortedJobs [] [] SortField.title true).Perm (filteredJobs [] []) ∧
    (∀ j, j ∈ filteredJobs [] [] ↔ j ∈ ([] : List Job) ∧ MatchesSpec [] j) ∧
    shownCount [] [] SortField.title true = List.countP (jobMatches []) [] ∧
    totalCount [] = List.length ([] : List Job) :=
  C8_jobs_table_filter [] [] SortField.title true

end TalentAI

namespace TalentAI

theorem parseAt_le (l : List Char) (r : Nat × Nat) (h : parseAt l = some r) :
    r.1 ≤ r.2 := by
  cases l with
  | nil => simp [parseAt] at h
  | cons c rest =>
    simp only [parseAt] at h
    by_cases hd : c.isDigit
    · rw [if_pos hd] at h
      split at h
      · injection h with h'
        subst h'
        exact le_refl _
      · split at h
        · split at h
          · split at h
            · rename_i hle
              injection h with h'
              subst h'
              exact hle
            · exact absurd h (by simp)
          · injection h with h'
            subst h'
            exact le_refl _
        · injection h with h'
          subst h'
          exact le_refl _
    · rw [if_neg hd] at h
      exact absurd h (by simp)

theorem scanSalary_le : ∀ (l : List Char) (r : Nat × Nat),
    scanSalary l = some r → r.1 ≤ r.2 := by
  intro l
  induction l with
  | nil => intro r h; simp [scanSalary] at h
  | cons c rest ih =>
    intro r h
    simp only [scanSalary] at h
    by_cases hc : c = '$'
    · rw [if_pos hc] at h
      cases rest with
      | nil => exact absurd h (by simp)
      | cons d ds =>
        simp only [] at h
        by_cases hd : d.isDigit
        · rw [if_pos hd] at h
          exact parseAt_le _ r h
        · rw [if_neg hd] at h
          exact ih r h
    · rw [if_neg hc] at h
      exact ih r h

theorem scanSalary_no_dollar : ∀ l : List Char, '$' ∉ l → scanSalary l = none := by
  intro l
  induction l with
  | nil => intro _; rfl
  | cons c rest ih =>
    intro hn
    have hc : ¬ (c = '$') := fun h => hn (h ▸ List.mem_cons_self c rest)
    have hr : '$' ∉ rest := fun h => hn (List.mem_cons_of_mem c h)
    simp only [scanSalary, if_neg hc]
    exact ih hr

/-- C3: the salary parser maps the two scenario texts to their specified
values, yields none on any text with no dollar marker, always returns
`min ≤ max` (a matched range with `min > max` is rejected, not swapped),
and takes the first match in the text. -/
theorem C3_salary_parsing :
    parseSalary "$180k - $220k" = some (180000, 220000) ∧
    parseSalary "$95,000" = some (95000, 95000) ∧
    (∀ s : String, '$' ∉ s.data → parseSalary s = none) ∧
    (∀ (s : String) (r : Nat × Nat), parseSalary s = some r → r.1 ≤ r.2) ∧
    parseSalary "$220k - $180k" = none ∧
    parseSalary "$300k - $100k, then $100k - $300k" = none ∧
    parseSalary "$10k - $20k and $500k - $900k" = some (10000, 20000) :=
  ⟨by decide, by decide,
    fun s hs => scanSalary_no_dollar s.data hs,
    fun s r h => scanSalary_le s.data r h,
    by decide, by decide, by decide⟩

theorem C3_witness :
    ('$' ∉ "no salary given".data) ∧ parseSalary "no salary given" = none ∧
    parseSalary "$180k - $220k" = some (180000, 220000) :=
  ⟨by decide, C3_salary_parsing.2.2.1 "no salary given" (by decide),
    C3_salary_parsing.1⟩

/-- C4: the disclosure rate always lies in the interval from 0 to 100,
equals 100 times the salaried-posting count over the total count, and
is exactly 0 (not NaN, not an error) on the empty job set. -/
theorem C4_disclosure_rate (jobs : CompanyJobSet) :
    0 ≤ disclosureRate jobs ∧ disclosureRate jobs ≤ 100 ∧
    disclosureRate jobs = 100 * (countWithSalary jobs : ℚ) / (jobs.length : ℚ) ∧
    disclosureRate [] = 0 := by
  have hct : countWithSalary jobs ≤ jobs.length := List.countP_le_length _
  refine ⟨?_, ?_, ?_, by simp [disclosureRate]⟩
  · rw [disclosureRate]
    split
    · exact le_refl 0
    · positivity
  · rw [disclosureRate]
    split
    · norm_num
    · rename_i hlen
      have hl : 0 < (jobs.length : ℚ) := by
        exact_mod_cast Nat.pos_of_ne_zero hlen
      rw [div_le_iff₀ hl]
      have hc : (countWithSalary jobs : ℚ) ≤ (jobs.length : ℚ) := by exact_mod_cast hct
      nlinarith
  · rw [disclosureRate]
    split
    · rename_i hlen
      have hnil : jobs = [] := List.length_eq_zero.mp hlen
      subst hnil
      simp [countWithSalary]
    · rfl

theorem C4_witness :
    0 ≤ disclosureRate [] ∧ disclosureRate [] ≤ 100 ∧
    disclosureRate [] = 100 * (countWithSalary [] : ℚ) / (List.length ([] : CompanyJobSet) : ℚ) ∧
    disclosureRate [] = 0 :=
  C4_disclosure_rate []

/-- C5: `scrape` fails with FetchError exactly when the initial fetch
fails, fails with UnsupportedPlatformError exactly when both the
strategy match and the fallback extraction find nothing parseable, and
returns an empty job set as a valid non-error result. -/
theorem C5_scrape_errors (fetchResult : Option Page)
    (stratExtract fallbackExtract : Page → Option (List JobStub)) :
    (scrape fetchResult stratExtract fallbackExtract
        = Except.error ScrapeError.FetchError ↔ fetchResult = none) ∧
    (∀ page, fetchResult = some page →
      (scrape fetchResult stratExtract fallbackExtract
          = Except.error ScrapeError.UnsupportedPlatformError
        ↔ stratExtract page = none ∧ fallbackExtract page = none)) ∧
    (∀ page stubs, fetchResult = some page → stratExtract page = some stubs →
      scrape fetchResult stratExtract fallbackExtract = Except.ok stubs) := by
  refine ⟨?_, ?_, ?_⟩
  · cases fetchResult with
    | none => simp [scrape]
    | some page =>
      simp only [scrape]
      cases hs : stratExtract page with
      | some stubs => simp
      | none =>
        cases hf : fallbackExtract page with
        | some stubs => simp
        | none => simp
  · rintro page rfl
    simp only [scrape]
    cases hs : stratExtract page with
    | some stubs => simp
    | none =>
      cases hf : fallbackExtract page with
      | some stubs => simp
      | none => simp
  · rintro page stubs rfl hs
    simp [scrape, hs]

theorem C5_witness :
    (scrape (some "page") (fun _ => some []) (fun _ => none)
        = Except.error ScrapeError.FetchError ↔ (some "page" : Option Page) = none) ∧
    scrape (some "page") (fun _ => some []) (fun _ => none) = Except.ok [] :=
  ⟨(C5_scrape_errors (some "page") (fun _ => some []) (fun _ => none)).1,
    (C5_scrape_errors (some "page") (fun _ => some []) (fun _ => none)).2.2
      "page" [] rfl rfl⟩

/-- C6: the aggregation engine is a deterministic pure function — equal
inputs produce equal `AnalyticsSummary` outputs, and re-running on the
same input yields an identical result. -/
theorem C6_analyze_pure (s t : CompanyJobSet) (h : s = t) :
    analyze s = analyze t ∧ analyze s = analyze s :=
  ⟨by rw [h], rfl⟩

theorem C6_witness : analyze [] = analyze [] ∧ analyze [] = analyze [] :=
  C6_analyze_pure [] [] rfl

theorem pool_inFlight_le (limit n : Nat) (s : PoolState)
    (h : PoolReachable limit n s) : s.inFlight ≤ limit := by
  induction h with
  | refl => exact Nat.zero_le limit
  | tail hab hbc ih =>
    cases hbc with
    | start hq hlt => exact hlt
    | finish hif => exact le_trans (Nat.sub_le _ _) ih

/-- C7: in every run of the detail-fetch worker pool, from any total job
count, the number of simultaneously in-flight fetches never exceeds the
concurrency ceiling; in particular the default ceiling of 20. -/
theorem C7_concurrency_ceiling :
    (∀ n s, PoolReachable defaultConcurrency n s → s.inFlight ≤ 20) ∧
    (∀ limit n s, PoolReachable limit n s → s.inFlight ≤ limit) :=
  ⟨fun n s h => pool_inFlight_le defaultConcurrency n s h, pool_inFlight_le⟩

theorem C7_witness :
    PoolState.inFlight ⟨4, 1, 0⟩ ≤ 20 ∧ (initPool 7).inFlight ≤ 20 :=
  ⟨C7_concurrency_ceiling.1 5 ⟨4, 1, 0⟩
      (Relation.ReflTransGen.single
        (PoolStep.start (initPool 5) (by decide) (by decide))),
    C7_concurrency_ceiling.1 7 (initPool 7) Relation.ReflTransGen.refl⟩

end TalentAI
